import Mathlib

/-!
# Verification of the `roz_remembers` state container

A shallow embedding of `src/roz_remembers.py`: a JSON-like document tree,
the dotted-path read (`_get_nested_value`) and write (`_set_nested_value`)
engine, and one iteration of the `_action_processor` loop, together with
proofs of the specified properties.

Python dictionaries are modelled as insertion-ordered association lists
(`List (String × Doc)`); assignment to an existing key replaces its value
in place, assignment to a fresh key appends.  In-place mutation of the
document is rendered functionally: `set_nested_value` returns the success
flag together with the document value the mutated target holds after the
call.
-/

set_option autoImplicit false

namespace RozRemembers

/-- A JSON-like document: object (string-keyed map), array, or scalar
(string / number / boolean / null), as produced by `json.load`. -/
inductive Doc where
  | null : Doc
  | bool : Bool → Doc
  | num : Int → Doc
  | str : String → Doc
  | arr : List Doc → Doc
  | obj : List (String × Doc) → Doc
  deriving Repr

/-- `isinstance(x, (dict, list))`: the value is a container. -/
def Doc.isContainer : Doc → Bool
  | .obj _ => true
  | .arr _ => true
  | _ => false

/-- The value is the Python `None` / JSON `null`. -/
def Doc.isNull : Doc → Bool
  | .null => true
  | _ => false

/-- Python `dict.get(key)`: first binding of `key`, if any. -/
def lookupField : List (String × Doc) → String → Option Doc
  | [], _ => none
  | (k, v) :: rest, key => if k = key then some v else lookupField rest key

/-- Python `d[key] = v` on an insertion-ordered dict: replace the value at
an existing key in place, otherwise append the new binding. -/
def setField : List (String × Doc) → String → Doc → List (String × Doc)
  | [], key, v => [(key, v)]
  | (k, w) :: rest, key, v =>
      if k = key then (k, v) :: rest else (k, w) :: setField rest key v

/-- Python `part.isdigit()`: nonempty and all characters decimal digits. -/
def isDigitStr (s : String) : Bool :=
  !s.data.isEmpty && s.data.all Char.isDigit

/-- Python `int(part)` for a digit string: base-10 value. -/
def strToNat (s : String) : Nat :=
  s.data.foldl (fun acc c => acc * 10 + (c.toNat - 48)) 0

/-- Python `path.split('.')` on the character list: always at least one
(possibly empty) segment. -/
def splitDot : List Char → List String
  | [] => [""]
  | c :: cs =>
      if c = '.' then "" :: splitDot cs
      else
        match splitDot cs with
        | [] => [String.mk [c]]
        | p :: ps => String.mk (c :: p.data) :: ps

/-- `path.split('.')`: the segment list of a dotted path. -/
def pathParts (path : String) : List String :=
  splitDot path.data

/-- `RozRemembers._get_nested_value`, on an already split path: walk the
segments; a missing key, a `None` met after a step, a non-digit segment
against an array, an out-of-bounds index, or any segment against a scalar
yields `null`. -/
def get_nested_value : List String → Doc → Doc
  | [], d => d
  | part :: rest, .obj fields =>
      match lookupField fields part with
      | none => .null
      | some v => if v.isNull then .null else get_nested_value rest v
  | part :: rest, .arr xs =>
      if h : isDigitStr part ∧ strToNat part < xs.length then
        let v := xs.get ⟨strToNat part, h.2⟩
        if v.isNull then .null else get_nested_value rest v
      else .null
  | _ :: _, _ => .null

/-- Auto-vivification of a non-terminal segment's current value: keep a
container, replace anything else (including an absent value) by `{}`. -/
def vivify : Option Doc → Doc
  | some c => if c.isContainer then c else .obj []
  | none => .obj []

/-- `RozRemembers._set_nested_value`, on an already split path.  Returns
the success flag and the value the mutated target holds after the call
(the in-place child mutation is rendered by writing the recursive result
back into the parent slot, which is what aliasing makes the Python code
do). -/
def set_nested_value : List String → Doc → Doc → Bool × Doc
  | [], _, d => (true, d)
  | [part], value, .obj fields => (true, .obj (setField fields part value))
  | [part], value, .arr xs =>
      if isDigitStr part ∧ strToNat part < xs.length then
        (true, .arr (xs.set (strToNat part) value))
      else (false, .arr xs)
  | [_], _, d => (false, d)
  | part :: part2 :: rest, value, .obj fields =>
      let r := set_nested_value (part2 :: rest) value (vivify (lookupField fields part))
      (r.1, .obj (setField fields part r.2))
  | part :: part2 :: rest, value, .arr xs =>
      if h : isDigitStr part ∧ strToNat part < xs.length then
        let r := set_nested_value (part2 :: rest) value
          (vivify (some (xs.get ⟨strToNat part, h.2⟩)))
        (r.1, .arr (xs.set (strToNat part) r.2))
      else (false, .arr xs)
  | _ :: _ :: _, _, d => (false, d)

/-- String-path read: `_get_nested_value(path, doc)`. -/
def getPath (path : String) (d : Doc) : Doc :=
  get_nested_value (pathParts path) d

/-- String-path write: `_set_nested_value(path, value, doc)`. -/
def setPath (path : String) (value : Doc) (d : Doc) : Bool × Doc :=
  set_nested_value (pathParts path) value d

/-- `get_current_state`: a deep copy of the live document; for pure values
the copy is the value itself. -/
def get_current_state (s : Doc) : Doc := s

/-- A `STATE_CHANGED` event as put on the event queue. -/
structure Event where
  type : String
  path : String
  old_value : Doc
  new_value : Doc
  action_source : Doc
  deriving Repr

/-- One iteration of the `_action_processor` loop on a dequeued `action`:
the new live document together with the emitted event, if any.  A non-mapping
action and a non-string, non-`None` path raise inside the loop body and are
caught by the `except Exception` handler; both are rendered as the skip
result `(s, none)`, as are the unknown-type, missing-path and failed-write
branches. -/
def action_processor_step (s : Doc) (action : Doc) : Doc × Option Event :=
  match action with
  | .obj fields =>
      match lookupField fields "type" with
      | some (.str t) =>
          if t = "SET_STATE" then
            match lookupField fields "path" with
            | some (.str path) =>
                let value := (lookupField fields "value").getD .null
                let old := getPath path s
                let r := setPath path value s
                if r.1 then
                  (r.2, some {
                    type := "STATE_CHANGED"
                    path := path
                    old_value := old
                    new_value := getPath path r.2
                    action_source := action })
                else (s, none)
            | some .null => (s, none)
            | some _ => (s, none)
            | none => (s, none)
          else (s, none)
      | _ => (s, none)
  | _ => (s, none)

/-- The `_action_processor` loop over a queue of actions: the final live
document and the events emitted, in emission order. -/
def action_processor_run (s : Doc) : List Doc → Doc × List Event
  | [] => (s, [])
  | a :: rest =>
      let r := action_processor_step s a
      let r2 := action_processor_run r.1 rest
      (r2.1, r.2.toList ++ r2.2)

/-- Every action in the list is applied successfully (emits an event)
when processed in sequence from `s`. -/
def validSeq (s : Doc) : List Doc → Bool
  | [] => true
  | a :: rest =>
      (action_processor_step s a).2.isSome &&
      validSeq (action_processor_step s a).1 rest

/-- The first segment of a dotted path. -/
def headSeg (path : String) : String := (pathParts path).headI

/-- `action.get('value')`, defaulting to `None` when the key is absent. -/
def valueOf (fields : List (String × Doc)) : Doc :=
  (lookupField fields "value").getD Doc.null

/-- A well-formed `SET_STATE` action dictionary. -/
def mkSetState (path : String) (value : Doc) : Doc :=
  Doc.obj [("type", Doc.str "SET_STATE"), ("path", Doc.str path), ("value", value)]

/-- The action fails to apply in the sense of the processor's ordinary
failure branches: unknown (or missing, or non-string) action type, a
`SET_STATE` payload whose `path` is absent or `None`, or a nested write
that returns failure.  A non-mapping action and a non-string path are not
covered here: those raise and are handled by the loop's exception
boundary. -/
def failsToApply (s a : Doc) : Bool :=
  match a with
  | .obj fields =>
      match lookupField fields "type" with
      | some (.str t) =>
          if t = "SET_STATE" then
            match lookupField fields "path" with
            | some (.str path) => !(setPath path (valueOf fields) s).1
            | some .null => true
            | some _ => false
            | none => true
          else true
      | some _ => true
      | none => true
  | _ => false

/-- The loop body raises before reaching a normal branch: a non-mapping
action (`action.get` raises `AttributeError`) or a `SET_STATE` action whose
`path` is neither a string nor `None` (`path.split` raises).  Both are
caught by the loop's `except Exception` handler. -/
def raisesInLoop (a : Doc) : Bool :=
  match a with
  | .obj fields =>
      match lookupField fields "type" with
      | some (.str t) =>
          if t = "SET_STATE" then
            match lookupField fields "path" with
            | some (.str _) => false
            | some .null => false
            | some _ => true
            | none => false
          else false
      | _ => false
  | _ => true

/-! ## Helper lemmas on the map and array primitives -/

theorem lookupField_setField_self (fs : List (String × Doc)) (k : String) (v : Doc) :
    lookupField (setField fs k v) k = some v := by
  induction fs with
  | nil => simp [setField, lookupField]
  | cons p rest ih =>
    obtain ⟨k2, w⟩ := p
    by_cases h : k2 = k
    · simp [setField, h, lookupField]
    · simp [setField, h, lookupField, ih]

theorem lookupField_setField_ne (fs : List (String × Doc)) (k q : String) (v : Doc)
    (h : q ≠ k) : lookupField (setField fs k v) q = lookupField fs q := by
  induction fs with
  | nil => simp [setField, lookupField, Ne.symm h]
  | cons p rest ih =>
    obtain ⟨k2, w⟩ := p
    by_cases h2 : k2 = k
    · subst h2
      simp [setField, lookupField, Ne.symm h]
    · simp [setField, h2, lookupField, ih]

theorem setField_lookup_self (fs : List (String × Doc)) (k : String) (c : Doc)
    (h : lookupField fs k = some c) : setField fs k c = fs := by
  induction fs with
  | nil => simp [lookupField] at h
  | cons p rest ih =>
    obtain ⟨k2, w⟩ := p
    by_cases h2 : k2 = k
    · simp [lookupField, h2] at h
      simp [setField, h2, h]
    · simp [lookupField, h2] at h
      simp [setField, h2, ih h]

theorem set_get_self {α : Type} (xs : List α) (i : Nat) (h : i < xs.length) :
    xs.set i (xs.get ⟨i, h⟩) = xs := by
  induction xs generalizing i with
  | nil => simp at h
  | cons x rest ih =>
    cases i with
    | zero => simp
    | succ n => simpa using ih n (by simpa using h)

theorem splitDot_ne_nil (cs : List Char) : splitDot cs ≠ [] := by
  cases cs with
  | nil => simp [splitDot]
  | cons c rest =>
    by_cases h : c = '.'
    · simp [splitDot, h]
    · simp only [splitDot, h, if_false]
      cases hs : splitDot rest <;> simp

theorem pathParts_ne_nil (path : String) : pathParts path ≠ [] :=
  splitDot_ne_nil path.data

theorem vivify_isContainer (o : Option Doc) : (vivify o).isContainer = true := by
  cases o with
  | none => rfl
  | some c => cases c <;> simp [vivify, Doc.isContainer]

theorem isContainer_not_isNull (d : Doc) (h : d.isContainer = true) :
    d.isNull = false := by
  cases d <;> simp_all [Doc.isContainer, Doc.isNull]

/-! ## Helper lemmas about `set_nested_value` -/

/-- Starting from a fresh empty object, a write never fails: every segment
auto-vivifies. -/
theorem set_obj_empty_fst (parts : List String) (v : Doc) :
    (set_nested_value parts v (Doc.obj [])).1 = true := by
  induction parts with
  | nil => rfl
  | cons p rest ih =>
    cases rest with
    | nil => rfl
    | cons p2 rest2 =>
      simpa [set_nested_value, lookupField, vivify] using ih

/-- A write keeps an object an object. -/
theorem set_obj_shape (parts : List String) (v : Doc) (fs : List (String × Doc)) :
    ∃ fs2, (set_nested_value parts v (Doc.obj fs)).2 = Doc.obj fs2 := by
  match parts with
  | [] => exact ⟨fs, rfl⟩
  | [p] => exact ⟨setField fs p v, rfl⟩
  | p :: p2 :: rest =>
    exact ⟨setField fs p (set_nested_value (p2 :: rest) v
      (vivify (lookupField fs p))).2, rfl⟩

/-- A write keeps an array an array, of the same length. -/
theorem set_arr_shape (parts : List String) (v : Doc) (xs : List Doc) :
    ∃ ys, (set_nested_value parts v (Doc.arr xs)).2 = Doc.arr ys ∧
      ys.length = xs.length := by
  match parts with
  | [] => exact ⟨xs, rfl, rfl⟩
  | [p] =>
    by_cases h : isDigitStr p ∧ strToNat p < xs.length
    · exact ⟨xs.set (strToNat p) v, by simp [set_nested_value, h], by simp⟩
    · exact ⟨xs, by simp [set_nested_value, h], rfl⟩
  | p :: p2 :: rest =>
    by_cases h : isDigitStr p ∧ strToNat p < xs.length
    · refine ⟨xs.set (strToNat p) (set_nested_value (p2 :: rest) v
        (vivify (some (xs.get ⟨strToNat p, h.2⟩)))).2, ?_, by simp⟩
      simp [set_nested_value, h]
    · exact ⟨xs, by simp [set_nested_value, h], rfl⟩

/-- A write keeps a container a container. -/
theorem set_isContainer (parts : List String) (v d : Doc) (h : d.isContainer = true) :
    ((set_nested_value parts v d).2).isContainer = true := by
  cases d with
  | obj fs =>
    obtain ⟨fs2, h2⟩ := set_obj_shape parts v fs
    simp [h2, Doc.isContainer]
  | arr xs =>
    obtain ⟨ys, h2, -⟩ := set_arr_shape parts v xs
    simp [h2, Doc.isContainer]
  | _ => simp [Doc.isContainer] at h

theorem vivify_of_container (c : Doc) (h : c.isContainer = true) :
    vivify (some c) = c := by
  simp [vivify, h]

theorem vivify_of_not_container (c : Doc) (h : c.isContainer = false) :
    vivify (some c) = Doc.obj [] := by
  cases c <;> simp_all [vivify, Doc.isContainer]

theorem get_set_self {α : Type} (xs : List α) (i : Nat) (v : α)
    (h : i < (xs.set i v).length) : (xs.set i v).get ⟨i, h⟩ = v := by
  rw [List.get_eq_getElem]
  exact List.getElem_set_self h

/-! Branch equations for `get_nested_value` and `set_nested_value`. -/

theorem get_obj_cons (p : String) (rest : List String) (fs : List (String × Doc)) :
    get_nested_value (p :: rest) (Doc.obj fs)
      = match lookupField fs p with
        | none => Doc.null
        | some v => if v.isNull then Doc.null else get_nested_value rest v := rfl

theorem get_arr_cons_pos (p : String) (rest : List String) (xs : List Doc)
    (h1 : isDigitStr p = true) (h2 : strToNat p < xs.length) :
    get_nested_value (p :: rest) (Doc.arr xs)
      = if (xs.get ⟨strToNat p, h2⟩).isNull then Doc.null
        else get_nested_value rest (xs.get ⟨strToNat p, h2⟩) := by
  simp [get_nested_value, h1, h2]

theorem get_arr_cons_neg (p : String) (rest : List String) (xs : List Doc)
    (h : ¬(isDigitStr p = true ∧ strToNat p < xs.length)) :
    get_nested_value (p :: rest) (Doc.arr xs) = Doc.null := by
  simp [get_nested_value, h]

theorem get_scalar_cons (p : String) (rest : List String) (d : Doc)
    (h : d.isContainer = false) :
    get_nested_value (p :: rest) d = Doc.null := by
  cases d <;> simp_all [Doc.isContainer, get_nested_value]

theorem set_obj_single (p : String) (v : Doc) (fs : List (String × Doc)) :
    set_nested_value [p] v (Doc.obj fs) = (true, Doc.obj (setField fs p v)) := rfl

theorem set_arr_single_pos (p : String) (v : Doc) (xs : List Doc)
    (h1 : isDigitStr p = true) (h2 : strToNat p < xs.length) :
    set_nested_value [p] v (Doc.arr xs)
      = (true, Doc.arr (xs.set (strToNat p) v)) := by
  simp [set_nested_value, h1, h2]

theorem set_arr_single_neg (p : String) (v : Doc) (xs : List Doc)
    (h : ¬(isDigitStr p = true ∧ strToNat p < xs.length)) :
    set_nested_value [p] v (Doc.arr xs) = (false, Doc.arr xs) := by
  simp [set_nested_value, h]

theorem set_scalar_cons (p : String) (rest : List String) (v d : Doc)
    (h : d.isContainer = false) :
    set_nested_value (p :: rest) v d = (false, d) := by
  cases rest <;> cases d <;> simp_all [Doc.isContainer, set_nested_value]

theorem set_obj_cons2 (p p2 : String) (rest : List String) (v : Doc)
    (fs : List (String × Doc)) :
    set_nested_value (p :: p2 :: rest) v (Doc.obj fs)
      = ((set_nested_value (p2 :: rest) v (vivify (lookupField fs p))).1,
         Doc.obj (setField fs p
           (set_nested_value (p2 :: rest) v (vivify (lookupField fs p))).2)) := rfl

theorem set_arr_cons2_pos (p p2 : String) (rest : List String) (v : Doc)
    (xs : List Doc) (h1 : isDigitStr p = true) (h2 : strToNat p < xs.length) :
    set_nested_value (p :: p2 :: rest) v (Doc.arr xs)
      = ((set_nested_value (p2 :: rest) v
            (vivify (some (xs.get ⟨strToNat p, h2⟩)))).1,
         Doc.arr (xs.set (strToNat p)
           (set_nested_value (p2 :: rest) v
             (vivify (some (xs.get ⟨strToNat p, h2⟩)))).2)) := by
  simp [set_nested_value, h1, h2]

theorem set_arr_cons2_neg (p p2 : String) (rest : List String) (v : Doc)
    (xs : List Doc) (h : ¬(isDigitStr p = true ∧ strToNat p < xs.length)) :
    set_nested_value (p :: p2 :: rest) v (Doc.arr xs) = (false, Doc.arr xs) := by
  simp [set_nested_value, h]

/-- Write–read agreement: a successful write at a nonempty segment list is
observed by an immediately following read of the same segments. -/
theorem set_nested_get (parts : List String) (v : Doc) :
    ∀ d : Doc, parts ≠ [] → (set_nested_value parts v d).1 = true →
    get_nested_value parts (set_nested_value parts v d).2 = v := by
  induction parts with
  | nil => intro d hne _; exact absurd rfl hne
  | cons p rest ih =>
    intro d _ h
    cases rest with
    | nil =>
      cases hd : d.isContainer with
      | false =>
        rw [set_scalar_cons p [] v d hd] at h
        simp at h
      | true =>
        cases d with
        | obj fs =>
          rw [set_obj_single, get_obj_cons, lookupField_setField_self]
          cases v <;> simp [Doc.isNull, get_nested_value]
        | arr xs =>
          by_cases hc : isDigitStr p = true ∧ strToNat p < xs.length
          · rw [set_arr_single_pos p v xs hc.1 hc.2]
            have hlen : strToNat p < (xs.set (strToNat p) v).length := by
              simpa using hc.2
            rw [get_arr_cons_pos p [] _ hc.1 hlen, get_set_self]
            cases v <;> simp [Doc.isNull, get_nested_value]
          · rw [set_arr_single_neg p v xs hc] at h
            simp at h
        | null => simp [Doc.isContainer] at hd
        | bool b => simp [Doc.isContainer] at hd
        | num n => simp [Doc.isContainer] at hd
        | str s2 => simp [Doc.isContainer] at hd
    | cons p2 rest2 =>
      cases hd : d.isContainer with
      | false =>
        rw [set_scalar_cons p (p2 :: rest2) v d hd] at h
        simp at h
      | true =>
        cases d with
        | obj fs =>
          rw [set_obj_cons2] at h ⊢
          have hcont : ((set_nested_value (p2 :: rest2) v
              (vivify (lookupField fs p))).2).isContainer = true :=
            set_isContainer _ _ _ (vivify_isContainer _)
          have hnn := isContainer_not_isNull _ hcont
          rw [get_obj_cons, lookupField_setField_self]
          simp only [hnn, Bool.false_eq_true, if_false]
          exact ih (vivify (lookupField fs p)) (by simp) h
        | arr xs =>
          by_cases hc : isDigitStr p = true ∧ strToNat p < xs.length
          · rw [set_arr_cons2_pos p p2 rest2 v xs hc.1 hc.2] at h ⊢
            have hcont : ((set_nested_value (p2 :: rest2) v
                (vivify (some (xs.get ⟨strToNat p, hc.2⟩)))).2).isContainer = true :=
              set_isContainer _ _ _ (vivify_isContainer _)
            have hnn := isContainer_not_isNull _ hcont
            have hlen : strToNat p < (xs.set (strToNat p)
                (set_nested_value (p2 :: rest2) v
                  (vivify (some (xs.get ⟨strToNat p, hc.2⟩)))).2).length := by
              simpa using hc.2
            rw [get_arr_cons_pos p (p2 :: rest2) _ hc.1 hlen, get_set_self]
            simp only [hnn, Bool.false_eq_true, if_false]
            exact ih _ (by simp) h
          · rw [set_arr_cons2_neg p p2 rest2 v xs hc] at h
            simp at h
        | null => simp [Doc.isContainer] at hd
        | bool b => simp [Doc.isContainer] at hd
        | num n => simp [Doc.isContainer] at hd
        | str s2 => simp [Doc.isContainer] at hd

/-- A failed write leaves the target value exactly as it was: every failure
happens before the first mutation, because once a segment has been
auto-vivified the remaining suffix can no longer fail. -/
theorem set_nested_fail (parts : List String) (v : Doc) :
    ∀ d : Doc, (set_nested_value parts v d).1 = false →
    (set_nested_value parts v d).2 = d := by
  induction parts with
  | nil => intro d h; simp [set_nested_value] at h
  | cons p rest ih =>
    intro d h
    cases rest with
    | nil =>
      cases hd : d.isContainer with
      | false => rw [set_scalar_cons p [] v d hd]
      | true =>
        cases d with
        | obj fs => rw [set_obj_single] at h; simp at h
        | arr xs =>
          by_cases hc : isDigitStr p = true ∧ strToNat p < xs.length
          · rw [set_arr_single_pos p v xs hc.1 hc.2] at h
            simp at h
          · rw [set_arr_single_neg p v xs hc]
        | null => simp [Doc.isContainer] at hd
        | bool b => simp [Doc.isContainer] at hd
        | num n => simp [Doc.isContainer] at hd
        | str s2 => simp [Doc.isContainer] at hd
    | cons p2 rest2 =>
      cases hd : d.isContainer with
      | false => rw [set_scalar_cons p (p2 :: rest2) v d hd]
      | true =>
        cases d with
        | obj fs =>
          rw [set_obj_cons2] at h ⊢
          cases hl : lookupField fs p with
          | none =>
            rw [hl] at h
            simp only [vivify] at h
            exact absurd h (by simp [set_obj_empty_fst])
          | some c =>
            rw [hl] at h
            cases hcont : c.isContainer with
            | true =>
              rw [vivify_of_container c hcont] at h ⊢
              have h2 : (set_nested_value (p2 :: rest2) v c).1 = false := by
                simpa using h
              show Doc.obj (setField fs p (set_nested_value (p2 :: rest2) v c).2)
                = Doc.obj fs
              rw [ih c h2, setField_lookup_self fs p c hl]
            | false =>
              rw [vivify_of_not_container c hcont] at h
              exact absurd h (by simp [set_obj_empty_fst])
        | arr xs =>
          by_cases hc : isDigitStr p = true ∧ strToNat p < xs.length
          · rw [set_arr_cons2_pos p p2 rest2 v xs hc.1 hc.2] at h ⊢
            cases hcont : (xs.get ⟨strToNat p, hc.2⟩).isContainer with
            | true =>
              rw [vivify_of_container _ hcont] at h ⊢
              have h2 : (set_nested_value (p2 :: rest2) v
                  (xs.get ⟨strToNat p, hc.2⟩)).1 = false := by
                simpa using h
              show Doc.arr (xs.set (strToNat p) (set_nested_value (p2 :: rest2) v
                  (xs.get ⟨strToNat p, hc.2⟩)).2) = Doc.arr xs
              rw [ih _ h2]
              congr 1
              exact set_get_self xs (strToNat p) hc.2
            | false =>
              rw [vivify_of_not_container _ hcont] at h
              exact absurd h (by simp [set_obj_empty_fst])
          · rw [set_arr_cons2_neg p p2 rest2 v xs hc]
        | null => simp [Doc.isContainer] at hd
        | bool b => simp [Doc.isContainer] at hd
        | num n => simp [Doc.isContainer] at hd
        | str s2 => simp [Doc.isContainer] at hd

/-! ## Frame lemmas: a write only touches the slot named by the head segment -/

theorem set_obj_head (p1 : String) (prest : List String) (v : Doc)
    (fs : List (String × Doc)) :
    ∃ X, (set_nested_value (p1 :: prest) v (Doc.obj fs)).2
      = Doc.obj (setField fs p1 X) := by
  cases prest with
  | nil => exact ⟨v, rfl⟩
  | cons p2 rest => exact ⟨_, rfl⟩

theorem set_arr_head (p1 : String) (prest : List String) (v : Doc) (xs : List Doc)
    (h : (set_nested_value (p1 :: prest) v (Doc.arr xs)).1 = true) :
    ∃ X, (set_nested_value (p1 :: prest) v (Doc.arr xs)).2
      = Doc.arr (xs.set (strToNat p1) X) := by
  cases prest with
  | nil =>
    by_cases hc : isDigitStr p1 = true ∧ strToNat p1 < xs.length
    · rw [set_arr_single_pos p1 v xs hc.1 hc.2]
      exact ⟨v, rfl⟩
    · rw [set_arr_single_neg p1 v xs hc] at h
      simp at h
  | cons p2 rest =>
    by_cases hc : isDigitStr p1 = true ∧ strToNat p1 < xs.length
    · rw [set_arr_cons2_pos p1 p2 rest v xs hc.1 hc.2]
      exact ⟨_, rfl⟩
    · rw [set_arr_cons2_neg p1 p2 rest v xs hc] at h
      simp at h

theorem get_obj_setField_ne (q1 : String) (qrest : List String)
    (fs : List (String × Doc)) (p1 : String) (X : Doc) (h : q1 ≠ p1) :
    get_nested_value (q1 :: qrest) (Doc.obj (setField fs p1 X))
      = get_nested_value (q1 :: qrest) (Doc.obj fs) := by
  rw [get_obj_cons, get_obj_cons, lookupField_setField_ne fs p1 q1 X h]

theorem get_arr_set_ne (q1 : String) (qrest : List String) (xs : List Doc)
    (i : Nat) (X : Doc) (h : strToNat q1 ≠ i) :
    get_nested_value (q1 :: qrest) (Doc.arr (xs.set i X))
      = get_nested_value (q1 :: qrest) (Doc.arr xs) := by
  by_cases h1 : isDigitStr q1 = true
  · by_cases h2 : strToNat q1 < xs.length
    · have h2b : strToNat q1 < (xs.set i X).length := by simpa using h2
      rw [get_arr_cons_pos q1 qrest _ h1 h2b, get_arr_cons_pos q1 qrest xs h1 h2]
      have hg : (xs.set i X).get ⟨strToNat q1, h2b⟩ = xs.get ⟨strToNat q1, h2⟩ := by
        rw [List.get_eq_getElem, List.get_eq_getElem]
        exact List.getElem_set_ne (Ne.symm h) h2b
      rw [hg]
    · rw [get_arr_cons_neg q1 qrest _ (by simp [h2]),
        get_arr_cons_neg q1 qrest xs (by simp [h2])]
  · rw [get_arr_cons_neg q1 qrest _ (by simp [h1]),
      get_arr_cons_neg q1 qrest xs (by simp [h1])]

theorem pathParts_eq_head_cons (path : String) :
    pathParts path = headSeg path :: (pathParts path).tail := by
  cases hp : pathParts path with
  | nil => exact absurd hp (pathParts_ne_nil path)
  | cons a l => simp [headSeg, hp]

/-! ## Pipeline lemmas -/

theorem run_cons (s a : Doc) (rest : List Doc) :
    action_processor_run s (a :: rest)
      = ((action_processor_run (action_processor_step s a).1 rest).1,
         (action_processor_step s a).2.toList
           ++ (action_processor_run (action_processor_step s a).1 rest).2) := rfl

theorem run_fst_cons (s a : Doc) (rest : List Doc) :
    (action_processor_run s (a :: rest)).1
      = (action_processor_run (action_processor_step s a).1 rest).1 := rfl

/-- A skipped action leaves the loop exactly where it was: the remaining
queue is processed from the same state with the same events. -/
theorem run_skip (s a : Doc) (rest : List Doc)
    (h : action_processor_step s a = (s, none)) :
    action_processor_run s (a :: rest) = action_processor_run s rest := by
  rw [run_cons, h]
  simp

/-- The `SET_STATE` branch of the processor, for an action carrying a
string path. -/
theorem step_set_state (s : Doc) (fields : List (String × Doc)) (p : String)
    (ht : lookupField fields "type" = some (Doc.str "SET_STATE"))
    (hp : lookupField fields "path" = some (Doc.str p)) :
    action_processor_step s (Doc.obj fields)
      = if (setPath p (valueOf fields) s).1
        then ((setPath p (valueOf fields) s).2, some {
          type := "STATE_CHANGED"
          path := p
          old_value := getPath p s
          new_value := getPath p (setPath p (valueOf fields) s).2
          action_source := Doc.obj fields })
        else (s, none) := by
  simp only [action_processor_step, ht, hp, valueOf, if_true]

/-- An action that fails to apply is skipped: no event, state untouched. -/
theorem step_fails (s a : Doc) (h : failsToApply s a = true) :
    action_processor_step s a = (s, none) := by
  cases a with
  | obj fields =>
      cases ht : lookupField fields "type" with
      | none => simp [action_processor_step, ht]
      | some tv =>
        cases tv with
        | str t =>
          by_cases he : t = "SET_STATE"
          · subst he
            cases hp : lookupField fields "path" with
            | none => simp [action_processor_step, ht, hp]
            | some pv =>
              cases pv with
              | str p =>
                simp only [failsToApply, ht, if_true, hp, Bool.not_eq_true'] at h
                rw [step_set_state s fields p ht hp, h]
                simp
              | null => simp [action_processor_step, ht, hp]
              | bool b => simp [action_processor_step, ht, hp]
              | num n => simp [action_processor_step, ht, hp]
              | arr xs => simp [action_processor_step, ht, hp]
              | obj fs2 => simp [action_processor_step, ht, hp]
          · simp [action_processor_step, ht, he]
        | null => simp [action_processor_step, ht]
        | bool b => simp [action_processor_step, ht]
        | num n => simp [action_processor_step, ht]
        | arr xs => simp [action_processor_step, ht]
        | obj fs2 => simp [action_processor_step, ht]
  | null => simp [failsToApply] at h
  | bool b => simp [failsToApply] at h
  | num n => simp [failsToApply] at h
  | str s2 => simp [failsToApply] at h
  | arr xs => simp [failsToApply] at h

/-- An action whose processing raises is skipped by the exception handler:
no event, state untouched. -/
theorem step_raises (s a : Doc) (h : raisesInLoop a = true) :
    action_processor_step s a = (s, none) := by
  cases a with
  | obj fields =>
      cases ht : lookupField fields "type" with
      | none => simp [action_processor_step, ht]
      | some tv =>
        cases tv with
        | str t =>
          by_cases he : t = "SET_STATE"
          · subst he
            cases hp : lookupField fields "path" with
            | none => simp [action_processor_step, ht, hp]
            | some pv =>
              cases pv with
              | str p => simp [raisesInLoop, ht, hp] at h
              | null => simp [action_processor_step, ht, hp]
              | bool b => simp [action_processor_step, ht, hp]
              | num n => simp [action_processor_step, ht, hp]
              | arr xs => simp [action_processor_step, ht, hp]
              | obj fs2 => simp [action_processor_step, ht, hp]
          · simp [action_processor_step, ht, he]
        | null => simp [action_processor_step, ht]
        | bool b => simp [action_processor_step, ht]
        | num n => simp [action_processor_step, ht]
        | arr xs => simp [action_processor_step, ht]
        | obj fs2 => simp [action_processor_step, ht]
  | null => simp [action_processor_step]
  | bool b => simp [action_processor_step]
  | num n => simp [action_processor_step]
  | str s2 => simp [action_processor_step]
  | arr xs => simp [action_processor_step]

/-- Every emitted event records its own action as `action_source`, the
read of its path before the action as `old_value`, and the read of its
path on the state left by the action as `new_value`. -/
theorem step_emit (s a : Doc) (e : Event)
    (h : (action_processor_step s a).2 = some e) :
    e.type = "STATE_CHANGED" ∧ e.action_source = a ∧
    e.old_value = getPath e.path s ∧
    e.new_value = getPath e.path (action_processor_step s a).1 := by
  cases a with
  | obj fields =>
      cases ht : lookupField fields "type" with
      | none => simp [action_processor_step, ht] at h
      | some tv =>
        cases tv with
        | str t =>
          by_cases he : t = "SET_STATE"
          · subst he
            cases hp : lookupField fields "path" with
            | none => simp [action_processor_step, ht, hp] at h
            | some pv =>
              cases pv with
              | str p =>
                rw [step_set_state s fields p ht hp] at h ⊢
                by_cases hr : (setPath p (valueOf fields) s).1 = true
                · simp only [hr, if_true] at h ⊢
                  simp only [Option.some.injEq] at h
                  subst h
                  simp
                · simp [hr] at h
              | null => simp [action_processor_step, ht, hp] at h
              | bool b => simp [action_processor_step, ht, hp] at h
              | num n => simp [action_processor_step, ht, hp] at h
              | arr xs => simp [action_processor_step, ht, hp] at h
              | obj fs2 => simp [action_processor_step, ht, hp] at h
          · simp [action_processor_step, ht, he] at h
        | null => simp [action_processor_step, ht] at h
        | bool b => simp [action_processor_step, ht] at h
        | num n => simp [action_processor_step, ht] at h
        | arr xs => simp [action_processor_step, ht] at h
        | obj fs2 => simp [action_processor_step, ht] at h
  | null => simp [action_processor_step] at h
  | bool b => simp [action_processor_step] at h
  | num n => simp [action_processor_step] at h
  | str s2 => simp [action_processor_step] at h
  | arr xs => simp [action_processor_step] at h

/-- Order-preservation and value agreement for a successfully applied
sequence: one event per action, the `k`-th event sourced from the `k`-th
action, its `old_value` read from the state after `k` actions applied and
its `new_value` read from the state after `k + 1` actions applied. -/
theorem run_valid_events (acts : List Doc) :
    ∀ s : Doc, validSeq s acts = true →
    (action_processor_run s acts).2.length = acts.length ∧
    ∀ (k : Nat), k < acts.length →
    ∃ e : Event, (action_processor_run s acts).2.get? k = some e ∧
      e.type = "STATE_CHANGED" ∧
      acts.get? k = some e.action_source ∧
      e.old_value = getPath e.path (action_processor_run s (acts.take k)).1 ∧
      e.new_value = getPath e.path (action_processor_run s (acts.take (k + 1))).1 := by
  induction acts with
  | nil =>
    intro s _
    exact ⟨rfl, fun k hk => absurd hk (by simp)⟩
  | cons a rest ih =>
    intro s hv
    simp only [validSeq, Bool.and_eq_true] at hv
    obtain ⟨hs, hrest⟩ := hv
    obtain ⟨e, he⟩ := Option.isSome_iff_exists.mp hs
    have hrun : action_processor_run s (a :: rest)
        = ((action_processor_run (action_processor_step s a).1 rest).1,
           e :: (action_processor_run (action_processor_step s a).1 rest).2) := by
      rw [run_cons, he]
      rfl
    obtain ⟨ihlen, ihk⟩ := ih (action_processor_step s a).1 hrest
    constructor
    · rw [hrun]
      simpa using ihlen
    · intro k hk
      cases k with
      | zero =>
        refine ⟨e, ?_, ?_, ?_, ?_, ?_⟩
        · rw [hrun]
          rfl
        · exact (step_emit s a e he).1
        · simpa using ((step_emit s a e he).2.1).symm
        · simpa using (step_emit s a e he).2.2.1
        · have := (step_emit s a e he).2.2.2
          simpa [run_fst_cons] using this
      | succ k =>
        obtain ⟨e2, h1, hty, h2, h3, h4⟩ := ihk k (by simpa using hk)
        refine ⟨e2, ?_, hty, ?_, ?_, ?_⟩
        · rw [hrun]
          simpa using h1
        · simpa using h2
        · rw [List.take_succ_cons, run_fst_cons]
          exact h3
        · rw [List.take_succ_cons, run_fst_cons]
          exact h4

/-! ## The claims -/

/-- C1: every dequeued action that fails to apply — unknown action type,
`SET_STATE` payload lacking a path, or a failed nested write — emits no
event, leaves the live document (as observed by `get_current_state`)
byte-for-byte unchanged, and processing continues with the next action. -/
theorem claim1_failed_action_skipped (s a : Doc) (rest : List Doc)
    (h : failsToApply s a = true) :
    (action_processor_step s a).2 = none ∧
    get_current_state (action_processor_step s a).1 = get_current_state s ∧
    action_processor_run s (a :: rest) = action_processor_run s rest := by
  have hstep := step_fails s a h
  exact ⟨by rw [hstep], by rw [hstep], run_skip s a rest hstep⟩

theorem claim1_witness :
    failsToApply (Doc.obj []) (Doc.obj [("type", Doc.str "UNKNOWN")]) = true ∧
    ((action_processor_step (Doc.obj [])
        (Doc.obj [("type", Doc.str "UNKNOWN")])).2 = none ∧
     get_current_state (action_processor_step (Doc.obj [])
        (Doc.obj [("type", Doc.str "UNKNOWN")])).1
       = get_current_state (Doc.obj []) ∧
     action_processor_run (Doc.obj [])
        [Doc.obj [("type", Doc.str "UNKNOWN")], mkSetState "x" (Doc.num 1)]
       = action_processor_run (Doc.obj []) [mkSetState "x" (Doc.num 1)]) :=
  ⟨rfl, claim1_failed_action_skipped (Doc.obj [])
    (Doc.obj [("type", Doc.str "UNKNOWN")]) [mkSetState "x" (Doc.num 1)] rfl⟩

/-- C2: for a sequence of valid `SET_STATE` actions, processing emits
exactly one `STATE_CHANGED` event per action, in order (the `k`-th event
is sourced from the `k`-th action), and the `k`-th event's `old_value`
is the read of its path on the document after `k` actions and its
`new_value` the read after `k + 1` actions. -/
theorem claim2_order_and_values (s : Doc) (acts : List Doc)
    (h : validSeq s acts = true) :
    (action_processor_run s acts).2.length = acts.length ∧
    ∀ (k : Nat), k < acts.length →
    ∃ e : Event, (action_processor_run s acts).2.get? k = some e ∧
      e.type = "STATE_CHANGED" ∧
      acts.get? k = some e.action_source ∧
      e.old_value = getPath e.path (action_processor_run s (acts.take k)).1 ∧
      e.new_value = getPath e.path (action_processor_run s (acts.take (k + 1))).1 :=
  run_valid_events acts s h

theorem claim2_witness :
    validSeq (Doc.obj [])
      [mkSetState "a" (Doc.num 1), mkSetState "a.b" (Doc.num 2)] = true ∧
    (action_processor_run (Doc.obj [])
      [mkSetState "a" (Doc.num 1), mkSetState "a.b" (Doc.num 2)]).2.length
      = [mkSetState "a" (Doc.num 1), mkSetState "a.b" (Doc.num 2)].length :=
  ⟨rfl, (claim2_order_and_values (Doc.obj [])
    [mkSetState "a" (Doc.num 1), mkSetState "a.b" (Doc.num 2)] rfl).1⟩

/-- C3: a successful `write(doc, p, v)` is observed by an immediately
following `read(doc, p)` on the same target: the read returns `v`. -/
theorem claim3_write_then_read (d : Doc) (p : String) (v : Doc)
    (h : (setPath p v d).1 = true) :
    getPath p (setPath p v d).2 = v :=
  set_nested_get (pathParts p) v d (pathParts_ne_nil p) h

theorem claim3_witness :
    (setPath "a" (Doc.num 7) (Doc.obj [])).1 = true ∧
    getPath "a" (setPath "a" (Doc.num 7) (Doc.obj [])).2 = Doc.num 7 :=
  ⟨rfl, claim3_write_then_read (Doc.obj []) "a" (Doc.num 7) rfl⟩

/-- C4: during a write, a non-terminal segment whose current value is
absent or not a container is replaced by a fresh empty object (for both
object fields and in-bounds array slots), the write then succeeding
through the fresh object; in particular writing `5` at `a.b.c` on the
empty document yields `{a: {b: {c: 5}}}`. -/
theorem claim4_auto_vivification :
    (∀ (fs : List (String × Doc)) (p p2 : String) (rest : List String) (v : Doc),
      (lookupField fs p = none ∨
        ∃ c, lookupField fs p = some c ∧ c.isContainer = false) →
      set_nested_value (p :: p2 :: rest) v (Doc.obj fs)
        = (true, Doc.obj (setField fs p
            (set_nested_value (p2 :: rest) v (Doc.obj [])).2))) ∧
    (∀ (xs : List Doc) (p p2 : String) (rest : List String) (v : Doc)
      (h1 : isDigitStr p = true) (h2 : strToNat p < xs.length),
      (xs.get ⟨strToNat p, h2⟩).isContainer = false →
      set_nested_value (p :: p2 :: rest) v (Doc.arr xs)
        = (true, Doc.arr (xs.set (strToNat p)
            (set_nested_value (p2 :: rest) v (Doc.obj [])).2))) ∧
    setPath "a.b.c" (Doc.num 5) (Doc.obj [])
      = (true, Doc.obj [("a", Doc.obj [("b", Doc.obj [("c", Doc.num 5)])])]) := by
  refine ⟨?_, ?_, rfl⟩
  · intro fs p p2 rest v h
    have hv : vivify (lookupField fs p) = Doc.obj [] := by
      rcases h with h | ⟨c, hc, hcc⟩
      · rw [h]
        rfl
      · rw [hc]
        exact vivify_of_not_container c hcc
    rw [set_obj_cons2, hv]
    simp only [Prod.mk.injEq]
    exact ⟨set_obj_empty_fst _ _, trivial⟩
  · intro xs p p2 rest v h1 h2 hcc
    rw [set_arr_cons2_pos p p2 rest v xs h1 h2, vivify_of_not_container _ hcc]
    simp only [Prod.mk.injEq]
    exact ⟨set_obj_empty_fst _ _, trivial⟩

theorem claim4_witness :
    (lookupField [] "x" = none ∨
      ∃ c, lookupField [] "x" = some c ∧ c.isContainer = false) ∧
    set_nested_value ["x", "y"] (Doc.num 1) (Doc.obj [])
      = (true, Doc.obj [("x", Doc.obj [("y", Doc.num 1)])]) := by
  refine ⟨Or.inl rfl, ?_⟩
  rw [claim4_auto_vivification.1 [] "x" "y" [] (Doc.num 1) (Or.inl rfl)]
  rfl

/-- C5: if `write(doc, p, v)` returns failure, the target document value
is left exactly equal to what it was before the call — no
auto-vivification or partial mutation survives a failed write. -/
theorem claim5_failed_write_unchanged (d : Doc) (p : String) (v : Doc)
    (h : (setPath p v d).1 = false) :
    (setPath p v d).2 = d :=
  set_nested_fail (pathParts p) v d h

theorem claim5_witness :
    (setPath "a.0" (Doc.num 1) (Doc.obj [("a", Doc.arr [])])).1 = false ∧
    (setPath "a.0" (Doc.num 1) (Doc.obj [("a", Doc.arr [])])).2
      = Doc.obj [("a", Doc.arr [])] :=
  ⟨rfl, claim5_failed_write_unchanged (Doc.obj [("a", Doc.arr [])]) "a.0"
    (Doc.num 1) rfl⟩

/-- C6: the read returns `null` on a missing object key, a non-digit
segment against an array, any segment against a scalar, an out-of-bounds
array index, and a `null` met mid-path (in which case the remaining
segments are not processed and the overall result is `null`, whatever
they are). -/
theorem claim6_read_null_cases :
    (∀ (p : String) (rest : List String) (fs : List (String × Doc)),
      lookupField fs p = none →
      get_nested_value (p :: rest) (Doc.obj fs) = Doc.null) ∧
    (∀ (p : String) (rest : List String) (xs : List Doc),
      isDigitStr p = false →
      get_nested_value (p :: rest) (Doc.arr xs) = Doc.null) ∧
    (∀ (p : String) (rest : List String) (d : Doc),
      d.isContainer = false →
      get_nested_value (p :: rest) d = Doc.null) ∧
    (∀ (p : String) (rest : List String) (xs : List Doc),
      isDigitStr p = true → xs.length ≤ strToNat p →
      get_nested_value (p :: rest) (Doc.arr xs) = Doc.null) ∧
    (∀ (p : String) (rest : List String) (fs : List (String × Doc)),
      lookupField fs p = some Doc.null →
      get_nested_value (p :: rest) (Doc.obj fs) = Doc.null) ∧
    (∀ (p : String) (rest : List String) (xs : List Doc)
      (h1 : isDigitStr p = true) (h2 : strToNat p < xs.length),
      xs.get ⟨strToNat p, h2⟩ = Doc.null →
      get_nested_value (p :: rest) (Doc.arr xs) = Doc.null) := by
  refine ⟨?_, ?_, ?_, ?_, ?_, ?_⟩
  · intro p rest fs h
    rw [get_obj_cons, h]
  · intro p rest xs h
    exact get_arr_cons_neg p rest xs (by simp [h])
  · intro p rest d h
    exact get_scalar_cons p rest d h
  · intro p rest xs _ h2
    exact get_arr_cons_neg p rest xs (fun hcon => absurd hcon.2 (by omega))
  · intro p rest fs h
    rw [get_obj_cons, h]
    rfl
  · intro p rest xs h1 h2 h3
    rw [get_arr_cons_pos p rest xs h1 h2, h3]
    rfl

theorem claim6_witness :
    lookupField [] "k" = none ∧
    get_nested_value ["k"] (Doc.obj []) = Doc.null :=
  ⟨rfl, claim6_read_null_cases.1 "k" [] [] rfl⟩

/-- C7: a write addressing an array with an out-of-bounds index — at the
terminal segment or at a non-terminal one — returns failure and creates
no new array slots; dispatching `SET_STATE{path: "list.5", value: 1}`
against `{list: [0, 1, 2]}` fails, emits no event, and leaves the
document unchanged. -/
theorem claim7_out_of_bounds_write :
    (∀ (p : String) (v : Doc) (xs : List Doc),
      isDigitStr p = true → xs.length ≤ strToNat p →
      set_nested_value [p] v (Doc.arr xs) = (false, Doc.arr xs)) ∧
    (∀ (p p2 : String) (rest : List String) (v : Doc) (xs : List Doc),
      isDigitStr p = true → xs.length ≤ strToNat p →
      set_nested_value (p :: p2 :: rest) v (Doc.arr xs) = (false, Doc.arr xs)) ∧
    action_processor_step
        (Doc.obj [("list", Doc.arr [Doc.num 0, Doc.num 1, Doc.num 2])])
        (mkSetState "list.5" (Doc.num 1))
      = (Doc.obj [("list", Doc.arr [Doc.num 0, Doc.num 1, Doc.num 2])], none) := by
  refine ⟨?_, ?_, rfl⟩
  · intro p v xs h1 h2
    exact set_arr_single_neg p v xs (fun hcon => absurd hcon.2 (by omega))
  · intro p p2 rest v xs h1 h2
    exact set_arr_cons2_neg p p2 rest v xs (fun hcon => absurd hcon.2 (by omega))

theorem claim7_witness :
    (isDigitStr "5" = true ∧ [Doc.num 0, Doc.num 1, Doc.num 2].length ≤ strToNat "5") ∧
    set_nested_value ["5"] (Doc.num 1) (Doc.arr [Doc.num 0, Doc.num 1, Doc.num 2])
      = (false, Doc.arr [Doc.num 0, Doc.num 1, Doc.num 2]) :=
  ⟨⟨rfl, by decide⟩, claim7_out_of_bounds_write.1 "5" (Doc.num 1)
    [Doc.num 0, Doc.num 1, Doc.num 2] rfl (by decide)⟩

/-- C8: an action that raises an unexpected internal fault while being
processed (a non-mapping action, or a `SET_STATE` whose path is neither a
string nor `None`) is caught at the loop boundary and skipped — no event,
state untouched — and the loop goes on to process the remaining queue.
The processing functions are total, so no action value can make the
modelled loop crash or terminate. -/
theorem claim8_fault_isolated (s a : Doc) (rest : List Doc)
    (h : raisesInLoop a = true) :
    (action_processor_step s a).2 = none ∧
    (action_processor_step s a).1 = s ∧
    action_processor_run s (a :: rest) = action_processor_run s rest := by
  have hstep := step_raises s a h
  exact ⟨by rw [hstep], by rw [hstep], run_skip s a rest hstep⟩

theorem claim8_witness :
    raisesInLoop (Doc.num 3) = true ∧
    ((action_processor_step (Doc.obj []) (Doc.num 3)).2 = none ∧
     (action_processor_step (Doc.obj []) (Doc.num 3)).1 = Doc.obj [] ∧
     action_processor_run (Doc.obj []) [Doc.num 3, mkSetState "x" (Doc.num 1)]
       = action_processor_run (Doc.obj []) [mkSetState "x" (Doc.num 1)]) :=
  ⟨rfl, claim8_fault_isolated (Doc.obj []) (Doc.num 3)
    [mkSetState "x" (Doc.num 1)] rfl⟩

/-- C9: a `SET_STATE` action that carries a path but omits the `value`
field is not malformed: it is applied as a write of `null` at that path,
and when that write succeeds a `STATE_CHANGED` event is emitted whose
`new_value` is `null`. -/
theorem claim9_missing_value_writes_null (s : Doc)
    (fields : List (String × Doc)) (p : String)
    (ht : lookupField fields "type" = some (Doc.str "SET_STATE"))
    (hp : lookupField fields "path" = some (Doc.str p))
    (hv : lookupField fields "value" = none)
    (hok : (setPath p Doc.null s).1 = true) :
    action_processor_step s (Doc.obj fields)
      = ((setPath p Doc.null s).2, some {
          type := "STATE_CHANGED"
          path := p
          old_value := getPath p s
          new_value := Doc.null
          action_source := Doc.obj fields }) := by
  have hval : valueOf fields = Doc.null := by simp [valueOf, hv]
  rw [step_set_state s fields p ht hp, hval, if_pos hok]
  have hget : getPath p (setPath p Doc.null s).2 = Doc.null :=
    set_nested_get (pathParts p) Doc.null s (pathParts_ne_nil p) hok
  rw [hget]

theorem claim9_witness :
    lookupField [("type", Doc.str "SET_STATE"), ("path", Doc.str "a")] "type"
      = some (Doc.str "SET_STATE") ∧
    lookupField [("type", Doc.str "SET_STATE"), ("path", Doc.str "a")] "path"
      = some (Doc.str "a") ∧
    lookupField [("type", Doc.str "SET_STATE"), ("path", Doc.str "a")] "value"
      = none ∧
    (setPath "a" Doc.null (Doc.obj [])).1 = true ∧
    action_processor_step (Doc.obj [])
        (Doc.obj [("type", Doc.str "SET_STATE"), ("path", Doc.str "a")])
      = ((setPath "a" Doc.null (Doc.obj [])).2, some {
          type := "STATE_CHANGED"
          path := "a"
          old_value := getPath "a" (Doc.obj [])
          new_value := Doc.null
          action_source := Doc.obj [("type", Doc.str "SET_STATE"),
            ("path", Doc.str "a")] }) :=
  ⟨rfl, rfl, rfl, rfl, claim9_missing_value_writes_null (Doc.obj [])
    [("type", Doc.str "SET_STATE"), ("path", Doc.str "a")] "a" rfl rfl rfl rfl⟩

/-- C10, counterexample to the claim as stated: on the array document
`[0, 1]`, writing `5` at path `"1"` succeeds, the path `"01"` has a first
segment different from `"1"` as a string, yet the read at `"01"` changes
(both segments denote index 1). -/
theorem claim10_counterexample :
    headSeg "01" ≠ headSeg "1" ∧
    (setPath "1" (Doc.num 5) (Doc.arr [Doc.num 0, Doc.num 1])).1 = true ∧
    getPath "01" (setPath "1" (Doc.num 5) (Doc.arr [Doc.num 0, Doc.num 1])).2
      ≠ getPath "01" (Doc.arr [Doc.num 0, Doc.num 1]) := by
  refine ⟨?_, rfl, ?_⟩
  · have h1 : headSeg "01" = "01" := rfl
    have h2 : headSeg "1" = "1" := rfl
    rw [h1, h2]
    decide
  · have h1 : getPath "01"
        (setPath "1" (Doc.num 5) (Doc.arr [Doc.num 0, Doc.num 1])).2
        = Doc.num 5 := rfl
    have h2 : getPath "01" (Doc.arr [Doc.num 0, Doc.num 1]) = Doc.num 1 := rfl
    rw [h1, h2]
    intro hcon
    injection hcon with hnum
    exact absurd hnum (by decide)

/-- C10, amended: a successful write changes the document only along the
chain of its path — reads at any path whose first segment addresses a
different location (a different key on an object document; a different
denoted index on an array document) are unchanged. -/
theorem claim10_frame_amended :
    (∀ (fs : List (String × Doc)) (p q : String) (v : Doc),
      (setPath p v (Doc.obj fs)).1 = true →
      headSeg q ≠ headSeg p →
      getPath q (setPath p v (Doc.obj fs)).2 = getPath q (Doc.obj fs)) ∧
    (∀ (xs : List Doc) (p q : String) (v : Doc),
      (setPath p v (Doc.arr xs)).1 = true →
      strToNat (headSeg q) ≠ strToNat (headSeg p) →
      getPath q (setPath p v (Doc.arr xs)).2 = getPath q (Doc.arr xs)) := by
  constructor
  · intro fs p q v _hok hne
    show get_nested_value (pathParts q) (set_nested_value (pathParts p) v (Doc.obj fs)).2
      = get_nested_value (pathParts q) (Doc.obj fs)
    rw [pathParts_eq_head_cons p, pathParts_eq_head_cons q]
    obtain ⟨X, hX⟩ := set_obj_head (headSeg p) (pathParts p).tail v fs
    rw [hX]
    exact get_obj_setField_ne (headSeg q) (pathParts q).tail fs (headSeg p) X hne
  · intro xs p q v hok hne
    have hok2 : (set_nested_value (headSeg p :: (pathParts p).tail) v
        (Doc.arr xs)).1 = true := by
      rw [← pathParts_eq_head_cons p]
      exact hok
    show get_nested_value (pathParts q) (set_nested_value (pathParts p) v (Doc.arr xs)).2
      = get_nested_value (pathParts q) (Doc.arr xs)
    rw [pathParts_eq_head_cons p, pathParts_eq_head_cons q]
    obtain ⟨X, hX⟩ := set_arr_head (headSeg p) (pathParts p).tail v xs hok2
    rw [hX]
    exact get_arr_set_ne (headSeg q) (pathParts q).tail xs (strToNat (headSeg p)) X hne

theorem claim10_witness :
    (setPath "a" (Doc.num 2) (Doc.obj [("a", Doc.num 1), ("b", Doc.num 9)])).1
      = true ∧
    headSeg "b" ≠ headSeg "a" ∧
    getPath "b" (setPath "a" (Doc.num 2)
        (Doc.obj [("a", Doc.num 1), ("b", Doc.num 9)])).2
      = getPath "b" (Doc.obj [("a", Doc.num 1), ("b", Doc.num 9)]) :=
  ⟨rfl, by decide, claim10_frame_amended.1 [("a", Doc.num 1), ("b", Doc.num 9)]
    "a" "b" (Doc.num 2) rfl (by decide)⟩

end RozRemembers
